import Mathlib

/-!
Shallow embedding of the `Color` component of FFGUtils: the class `Color`
in `src/lib/colors.ts` together with the `clamp` helper it consumes from
the numeric-helpers file.  JavaScript numbers are modeled as exact
rationals, together with the two non-numeric values that arise on the
executed paths: `undefined` (an absent optional parameter) and `NaN`
(the result of `parseInt` on a string with no leading hex digit, and of
arithmetic involving `NaN` or `undefined`).  Bitwise operators go through
the ECMAScript `ToInt32` truncation, modeled exactly.  Division by zero
(which would produce `Infinity` in JavaScript) is unreachable on every
path evaluated below and is mapped to `NaN`.  Hexadecimal input strings
are modeled by their character lists, matching the `split("")` view the
source itself takes.  The process-wide static `Color.colorMode` is passed
to the resolver as an explicit argument.
-/

namespace FFG

/-- A JavaScript value flowing through the color code: `undefined`, `NaN`, or a number (an exact rational). -/
inductive JSVal where
  | undef
  | nan
  | num (q : ℚ)
deriving DecidableEq, Repr

namespace JSVal

/-- Numeric view: `none` for the two non-numbers. -/
def toNumber : JSVal → Option ℚ
  | .undef => none
  | .nan => none
  | .num q => some q

/-- ECMAScript ToBoolean restricted to these values: `undefined`, `NaN` and `0` are falsy. -/
def truthy : JSVal → Bool
  | .undef => false
  | .nan => false
  | .num q => decide (q ≠ 0)

end JSVal

/-- Truncation toward zero, as ECMAScript ToInt32 performs before wrapping. -/
def truncQ (q : ℚ) : ℤ := if 0 ≤ q then ⌊q⌋ else -⌊-q⌋

/-- Binary numeric operator with `NaN` propagation (any non-number operand gives `NaN`). -/
def jsBin (f : ℚ → ℚ → ℚ) (a b : JSVal) : JSVal :=
  match a.toNumber, b.toNumber with
  | some x, some y => .num (f x y)
  | _, _ => .nan

/-- JavaScript `+` on numbers. -/
def jsAdd : JSVal → JSVal → JSVal := jsBin (fun x y => x + y)

/-- JavaScript binary `-`. -/
def jsSub : JSVal → JSVal → JSVal := jsBin (fun x y => x - y)

/-- JavaScript `*`. -/
def jsMul : JSVal → JSVal → JSVal := jsBin (fun x y => x * y)

/-- JavaScript `/`. Division by zero yields `Infinity` in JavaScript; it is unreachable on all
paths exercised by the theorems below, and is mapped to `NaN` here. -/
def jsDiv (a b : JSVal) : JSVal :=
  match a.toNumber, b.toNumber with
  | some x, some y => if y = 0 then .nan else .num (x / y)
  | _, _ => .nan

/-- JavaScript `%` (remainder with the sign of the dividend, truncated quotient). `x % 0` is `NaN`. -/
def jsMod (a b : JSVal) : JSVal :=
  match a.toNumber, b.toNumber with
  | some x, some y => if y = 0 then .nan else .num (x - y * (truncQ (x / y) : ℚ))
  | _, _ => .nan

/-- JavaScript `Math.abs`. -/
def jsAbs (a : JSVal) : JSVal :=
  match a.toNumber with
  | some x => .num (if x < 0 then -x else x)
  | none => .nan

/-- JavaScript `Math.min` on two arguments (`NaN` if either argument is not a number). -/
def jsMin (a b : JSVal) : JSVal :=
  match a.toNumber, b.toNumber with
  | some x, some y => .num (if x ≤ y then x else y)
  | _, _ => .nan

/-- JavaScript `Math.max` on two arguments (`NaN` if either argument is not a number). -/
def jsMax (a b : JSVal) : JSVal :=
  match a.toNumber, b.toNumber with
  | some x, some y => .num (if x ≤ y then y else x)
  | _, _ => .nan

/-- JavaScript `<=`: false whenever a non-number is involved. -/
def jsLe (a b : JSVal) : Bool :=
  match a.toNumber, b.toNumber with
  | some x, some y => decide (x ≤ y)
  | _, _ => false

/-- JavaScript `<` (used for the source comparisons `x > y`, embedded as `jsLt y x`). -/
def jsLt (a b : JSVal) : Bool :=
  match a.toNumber, b.toNumber with
  | some x, some y => decide (x < y)
  | _, _ => false

/-- JavaScript loose inequality `!=` on these values: `NaN` is unequal to everything,
`undefined` equals only `undefined`. -/
def jsNeq : JSVal → JSVal → Bool
  | .undef, .undef => false
  | .num x, .num y => decide (x ≠ y)
  | _, _ => true

/-- ECMAScript ToInt32: truncate toward zero, then wrap into the signed 32-bit range;
`NaN` and `undefined` map to 0. -/
def toI32 (v : JSVal) : ℤ :=
  match v.toNumber with
  | none => 0
  | some q => ((truncQ q + 2 ^ 31) % 2 ^ 32) - 2 ^ 31

/-- Unsigned 32-bit view of an integer (two's complement). -/
def u32 (n : ℤ) : ℕ := (n % 2 ^ 32).toNat

/-- Signed 32-bit value denoted by an unsigned 32-bit bit pattern. -/
def i32 (u : ℕ) : ℤ := if u < 2 ^ 31 then (u : ℤ) else (u : ℤ) - 2 ^ 32

/-- JavaScript `<<` on already-converted int32 operands (shift count masked to 5 bits). -/
def zShl (x : ℤ) (k : ℕ) : ℤ := i32 ((u32 x <<< (k % 32)) % 2 ^ 32)

/-- JavaScript `>>` (sign-propagating right shift) on an already-converted int32 operand. -/
def zShr (x : ℤ) (k : ℕ) : ℤ := Int.ediv (i32 (u32 x)) (2 ^ (k % 32))

/-- JavaScript `|` on already-converted int32 operands. -/
def zOr (x y : ℤ) : ℤ := i32 (u32 x ||| u32 y)

/-- JavaScript `&` on already-converted int32 operands. -/
def zAnd (x y : ℤ) : ℤ := i32 (u32 x &&& u32 y)

/-- Models `clamp` from the numeric helpers: `Math.max(min, Math.min(v, max))`.
The source default `min = 0` is supplied explicitly at every call site. -/
def clamp (v mx mn : JSVal) : JSVal := jsMax mn (jsMin v mx)


-- Decidable equality for `Except` results of the resolver.
deriving instance DecidableEq for Except

/-- Packed color plus alpha, the return shape of the two static conversions and of the resolver. -/
structure ColorObject where
  color : JSVal
  alpha : JSVal
deriving DecidableEq, Repr

/-- Models static `Color.getColorValueFromRGB`: clamp all four channels to `[0,255]`, then pack
`r << 16 | g << 8 | b`. The `console.log` side effect of the source is dropped. -/
def getColorValueFromRGB (r g b a : JSVal) : ColorObject :=
  let r := clamp r (.num 255) (.num 0)
  let g := clamp g (.num 255) (.num 0)
  let b := clamp b (.num 255) (.num 0)
  let a := clamp a (.num 255) (.num 0)
  { color := .num ((zOr (zOr (zShl (toI32 r) 16) (zShl (toI32 g) 8)) (toI32 b) : ℤ) : ℚ)
    alpha := a }

/-- The clamped hue `h = clamp(h, 360)` of `getColorValueFromHSL`. -/
def hslH (h : JSVal) : JSVal := clamp h (.num 360) (.num 0)

/-- The normalized saturation `s = clamp(s, 100) / 100` of `getColorValueFromHSL`. -/
def hslS (s : JSVal) : JSVal := jsDiv (clamp s (.num 100) (.num 0)) (.num 100)

/-- The normalized lightness `l = clamp(l, 100) / 100` of `getColorValueFromHSL`. -/
def hslL (l : JSVal) : JSVal := jsDiv (clamp l (.num 100) (.num 0)) (.num 100)

/-- The chroma `c = (1 - Math.abs(2 * l - 1)) * s` of `getColorValueFromHSL`. -/
def hslC (s l : JSVal) : JSVal :=
  jsMul (jsSub (.num 1) (jsAbs (jsSub (jsMul (.num 2) (hslL l)) (.num 1)))) (hslS s)

/-- The secondary component `x = c * (1 - Math.abs((h / 60) % 2 - 1))` of `getColorValueFromHSL`. -/
def hslX (h s l : JSVal) : JSVal :=
  jsMul (hslC s l)
    (jsSub (.num 1) (jsAbs (jsSub (jsMod (jsDiv (hslH h) (.num 60)) (.num 2)) (.num 1))))

/-- The lightness match `m = l - c / 2` of `getColorValueFromHSL`. -/
def hslM (s l : JSVal) : JSVal := jsSub (hslL l) (jsDiv (hslC s l) (.num 2))

/-- One output channel of `getColorValueFromHSL`: `(t + m) * 255` for a pre-offset value `t`. -/
def hslChan (t m : JSVal) : JSVal := jsMul (jsAdd t m) (.num 255)

/-- Models static `Color.getColorValueFromHSL`, including the source's exact sextant
comparisons (`0 <= h && h > 60`, `60 <= h && h > 120`, ..., `300 <= h && h > 360`): the
second operand of each `&&` is a greater-than test in the source, embedded as written.
The parameter default `a = 255` fires when the argument is `undefined`. -/
def getColorValueFromHSL (h s l a : JSVal) : ColorObject :=
  let a := match a with | .undef => .num 255 | v => v
  let hc := hslH h
  let a := clamp a (.num 255) (.num 0)
  let c := hslC s l
  let x := hslX h s l
  let m := hslM s l
  let rgb :=
    if jsLe (.num 0) hc && jsLt (.num 60) hc then (c, x, JSVal.num 0)
    else if jsLe (.num 60) hc && jsLt (.num 120) hc then (x, c, JSVal.num 0)
    else if jsLe (.num 120) hc && jsLt (.num 180) hc then (JSVal.num 0, c, x)
    else if jsLe (.num 180) hc && jsLt (.num 240) hc then (JSVal.num 0, x, c)
    else if jsLe (.num 300) hc && jsLt (.num 360) hc then (c, JSVal.num 0, x)
    else (JSVal.num 0, JSVal.num 0, JSVal.num 0)
  let rv := hslChan rgb.1 m
  let gv := hslChan rgb.2.1 m
  let bv := hslChan rgb.2.2 m
  { color := .num ((zOr (zOr (zShl (toI32 rv) 16) (zShl (toI32 gv) 8)) (toI32 bv) : ℤ) : ℚ)
    alpha := a }

/-- Value of one hexadecimal digit character, if it is one. -/
def hexDigitVal? (ch : Char) : Option ℕ :=
  if ('0' ≤ ch ∧ ch ≤ '9') then some (ch.toNat - ('0').toNat)
  else if ('a' ≤ ch ∧ ch ≤ 'f') then some (ch.toNat - ('a').toNat + 10)
  else if ('A' ≤ ch ∧ ch ≤ 'F') then some (ch.toNat - ('A').toNat + 10)
  else none

/-- Models `parseInt("0x" ++ s)`: the value of the longest leading run of hex digits,
and `NaN` when that run is empty. -/
def jsParseIntHex (s : List Char) : JSVal :=
  let ds := s.takeWhile (fun ch => (hexDigitVal? ch).isSome)
  match ds with
  | [] => .nan
  | _ => .num ((ds.foldl (fun acc ch => 16 * acc + (hexDigitVal? ch).getD 0) 0 : ℕ) : ℚ)

/-- Characters produced by a template literal `${v}`. JavaScript prints numbers in
decimal; this model is exact for `undefined` and for integral values, which are the
only inputs reaching it in the theorems below (a non-integral rational has no faithful
JavaScript double rendering, and is given an unreachable placeholder form). -/
def jsValToChars : JSVal → List Char
  | .undef => ("undefined").data
  | .nan => ("NaN").data
  | .num q =>
    if q.den = 1 then
      (if q.num < 0 then [ '-' ] ++ (Nat.repr q.num.natAbs).data else (Nat.repr q.num.natAbs).data)
    else (Nat.repr q.num.natAbs).data ++ [ '/' ] ++ (Nat.repr q.den).data

/-- Models the `ColorMode` enum; the process-wide `Color.colorMode` static is passed
explicitly to the resolver. -/
inductive ColorMode
  | RGB
  | HSL
deriving DecidableEq, Repr

/-- First constructor/setter argument: a hexadecimal string (as its character list) or a number. -/
inductive ColorInput
  | hex (s : List Char)
  | num (q : ℚ)
deriving DecidableEq, Repr

/-- The single error the resolver can raise (`"Invalid Hexadecimal String Provided."`). -/
inductive ColorError
  | invalidFormat
deriving DecidableEq, Repr

/-- Tail of `Color.parseParameters` after the string branch: the alpha default
(`if (!alpha) alpha = 255`) followed by the `ColorMode` switch with its falsy defaults
for `b` and `c`. -/
def numericTail (mode : ColorMode) (a b c alpha : JSVal) : ColorObject :=
  let alpha := if alpha.truthy then alpha else .num 255
  match mode with
  | .RGB =>
    let b := if b.truthy then b else a
    let c := if c.truthy then c else a
    getColorValueFromRGB a b c alpha
  | .HSL =>
    let b := if b.truthy then b else .num 50
    let c := if c.truthy then c else .num 50
    getColorValueFromHSL a b c alpha

/-- Leading hash removal of the resolver: `if (a.startsWith("#")) a = a.replace("#", "")`
(the guarded `replace` removes exactly the leading `#`). -/
def stripHash (s : List Char) : List Char :=
  match s with
  | ch :: r => if ch = '#' then r else s
  | [] => s

/-- Models static `Color.parseParameters`. A string input is stripped of a leading `#`;
a stripped length outside {3,4,6,8} throws. Lengths 3 and 4 duplicate each remaining
digit; length 4 first pops the last digit and then overwrites the popped alpha text with
the template `${alpha}${alpha}` built from the alpha parameter; length 8 pops the last
two digits as the alpha byte. If the input was a string and both `b` and `c` are falsy,
the parsed pair is returned directly; otherwise control falls through to the numeric
tail. -/
def parseParameters (mode : ColorMode) (a : ColorInput) (b c alpha : JSVal) :
    Except ColorError ColorObject :=
  match a with
  | .num q => .ok (numericTail mode (.num q) b c alpha)
  | .hex s0 =>
    let s := stripHash s0
    let len := s.length
    if len ≠ 3 ∧ len ≠ 4 ∧ len ≠ 6 ∧ len ≠ 8 then .error .invalidFormat
    else
      let td : List Char := [ 'f', 'f' ]
      let p :=
        if len = 3 ∨ len = 4 then
          let q := if len = 4 then (s.dropLast, jsValToChars alpha ++ jsValToChars alpha) else (s, td)
          (q.1.foldl (fun acc ch => acc ++ [ ch, ch ]) ([] : List Char), q.2)
        else if len = 8 then
          match s.reverse with
          | t1 :: t2 :: rest => (rest.reverse, [ t2, t1 ])
          | _ => (s, td)
        else (s, td)
      let aNum := jsParseIntHex p.1
      let alphaNum := jsParseIntHex p.2
      if ¬ b.truthy ∧ ¬ c.truthy then .ok { color := aNum, alpha := alphaNum }
      else .ok (numericTail mode aNum b c alphaNum)

/-- Cached RGB view: the packed value it was generated from plus the three decoded channels. -/
structure RGBObject where
  color : JSVal
  red : ℤ
  green : ℤ
  blue : ℤ
deriving DecidableEq, Repr

/-- Cached HSL view: the packed value it was generated from plus hue, saturation, lightness. -/
structure HSLObject where
  color : JSVal
  hue : ℚ
  saturation : ℚ
  lightness : ℚ
deriving DecidableEq, Repr

/-- Instance state of a `Color`: packed color `c`, alpha `a`, and the two lazy caches. -/
structure ColorState where
  c : JSVal
  a : JSVal
  lrgb : Option RGBObject
  lhsl : Option HSLObject
deriving DecidableEq, Repr

/-- Models `new Color(a, b, c, d)`: resolve the parameters, store packed color and alpha,
caches start empty. A resolver throw propagates and no instance is constructed. -/
def mkColor (mode : ColorMode) (a : ColorInput) (b c d : JSVal) : Except ColorError ColorState :=
  (parseParameters mode a b c d).map fun o => { c := o.color, a := o.alpha, lrgb := none, lhsl := none }

/-- Fresh `RGBObject` built by the `rgb` getter: bit extraction from the live packed value,
which is recorded in the `color` field. -/
def rgbObjOf (cv : JSVal) : RGBObject :=
  { color := cv
    red := zShr (zAnd (toI32 cv) 0xff0000) 16
    green := zShr (zAnd (toI32 cv) 0xff00) 8
    blue := zAnd (toI32 cv) 0xff }

/-- Models the `rgb` getter with its self-invalidating cache: recompute whenever there is
no cached view or its recorded `color` is loosely unequal to the live packed value. -/
def getRgb (s : ColorState) : RGBObject × ColorState :=
  match s.lrgb with
  | some o =>
    if jsNeq o.color s.c then
      let o2 := rgbObjOf s.c
      (o2, { s with lrgb := some o2 })
    else (o, s)
  | none =>
    let o2 := rgbObjOf s.c
    (o2, { s with lrgb := some o2 })

/-- Rounding of `+(v).toFixed(1)`: one decimal place, ties away from the smaller value. -/
def roundTo1 (q : ℚ) : ℚ := (⌊10 * q + 1 / 2⌋ : ℚ) / 10

/-- JavaScript `Math.round`: floor of the value plus one half. -/
def jsRound (q : ℚ) : ℤ := ⌊q + 1 / 2⌋

/-- JavaScript `%` restricted to plain rationals (used inside the `hsl` getter where all
operands are genuine numbers). -/
def qMod (x m : ℚ) : ℚ := x - m * (truncQ (x / m) : ℚ)

/-- Plain-rational `Math.abs`. -/
def qAbs (x : ℚ) : ℚ := if x < 0 then -x else x

/-- Plain-rational `Math.min` of two values. -/
def qMin (x y : ℚ) : ℚ := if x ≤ y then x else y

/-- Plain-rational `Math.max` of two values. -/
def qMax (x y : ℚ) : ℚ := if x ≤ y then y else x

/-- Body of the `hsl` getter recompute branch as a function of the three decoded channels
and the live packed value: normalize to `[0,1]`, max/min/delta hue sector formula,
`Math.round` on the scaled hue with a `+360` fixup, and one-decimal rounding of the
scaled saturation and lightness. -/
def hslComputeFields (red green blue : ℤ) (cv : JSVal) : HSLObject :=
  let r : ℚ := (red : ℚ) / 255
  let g : ℚ := (green : ℚ) / 255
  let b : ℚ := (blue : ℚ) / 255
  let cmin := qMin r (qMin g b)
  let cmax := qMax r (qMax g b)
  let delta := cmax - cmin
  let h0 : ℚ :=
    if delta = 0 then 0
    else if cmax = r then qMod ((g - b) / delta) 6
    else if cmax = g then (b - r) / delta + 2
    else (r - g) / delta + 4
  let h1 : ℤ := jsRound (h0 * 60)
  let h2 : ℤ := if h1 < 0 then h1 + 360 else h1
  let l0 : ℚ := (cmax + cmin) / 2
  let s0 : ℚ := if delta = 0 then 0 else delta / (1 - qAbs (2 * l0 - 1))
  { color := cv
    hue := (h2 : ℚ)
    saturation := roundTo1 (s0 * 100)
    lightness := roundTo1 (l0 * 100) }

/-- The `HSLObject` the getter computes for a given live packed value, reading the three
channels the `rgb` getter would decode from it. -/
def hslObjOf (cv : JSVal) : HSLObject :=
  hslComputeFields (rgbObjOf cv).red (rgbObjOf cv).green (rgbObjOf cv).blue cv

/-- Models the `hsl` getter: cache check first, then three reads through the `rgb` getter
(each threading the cache state), the conversion, and the cache fill. The getter never
writes the packed value, so the live `c` is unchanged throughout. -/
def getHsl (s : ColorState) : HSLObject × ColorState :=
  let fresh := fun (s : ColorState) =>
    let p1 := getRgb s
    let p2 := getRgb p1.2
    let p3 := getRgb p2.2
    let o := hslComputeFields p1.1.red p2.1.green p3.1.blue s.c
    (o, { p3.2 with lhsl := some o })
  match s.lhsl with
  | some o => if jsNeq o.color s.c then fresh s else (o, s)
  | none => fresh s

/-- Models `set red`: read `this.green` then `this.blue` through the cached `rgb` view,
repack with the new red and the stored alpha, overwrite only the packed value. -/
def setRed (s : ColorState) (v : ℚ) : ColorState :=
  let p1 := getRgb s
  let p2 := getRgb p1.2
  { p2.2 with c := (getColorValueFromRGB (.num v) (.num (p1.1.green : ℚ)) (.num (p2.1.blue : ℚ)) p2.2.a).color }

/-- Models `set green`: read `this.red` then `this.blue`, repack. -/
def setGreen (s : ColorState) (v : ℚ) : ColorState :=
  let p1 := getRgb s
  let p2 := getRgb p1.2
  { p2.2 with c := (getColorValueFromRGB (.num (p1.1.red : ℚ)) (.num v) (.num (p2.1.blue : ℚ)) p2.2.a).color }

/-- Models `set blue`: read `this.red` then `this.green`, repack. -/
def setBlue (s : ColorState) (v : ℚ) : ColorState :=
  let p1 := getRgb s
  let p2 := getRgb p1.2
  { p2.2 with c := (getColorValueFromRGB (.num (p1.1.red : ℚ)) (.num (p2.1.green : ℚ)) (.num v) p2.2.a).color }

/-- Models `set hue`: read `this.saturation` then `this.lightness` through the cached
`hsl` view, reconvert, overwrite only the packed value. -/
def setHue (s : ColorState) (v : ℚ) : ColorState :=
  let p1 := getHsl s
  let p2 := getHsl p1.2
  { p2.2 with c := (getColorValueFromHSL (.num v) (.num p1.1.saturation) (.num p2.1.lightness) p2.2.a).color }

/-- Models `set saturation`: read `this.hue` then `this.lightness`, reconvert. -/
def setSaturation (s : ColorState) (v : ℚ) : ColorState :=
  let p1 := getHsl s
  let p2 := getHsl p1.2
  { p2.2 with c := (getColorValueFromHSL (.num p1.1.hue) (.num v) (.num p2.1.lightness) p2.2.a).color }

/-- Models `set lightness`: read `this.hue` then `this.saturation`, reconvert. -/
def setLightness (s : ColorState) (v : ℚ) : ColorState :=
  let p1 := getHsl s
  let p2 := getHsl p1.2
  { p2.2 with c := (getColorValueFromHSL (.num p1.1.hue) (.num p2.1.saturation) (.num v) p2.2.a).color }

/-- Models `set alpha(alpha) { this.alpha = alpha; }`. The body assigns through the very
accessor being defined, so the setter re-enters itself unconditionally; the fuel bounds
the call depth, and `none` means the recursion never returned (the JavaScript engine
aborts with a stack overflow). -/
def setAlphaFuel : ℕ → ColorState → JSVal → Option ColorState
  | 0, _, _ => none
  | n + 1, s, v => setAlphaFuel n s v

/-- Models `set hex`: re-parse the string through the resolver and overwrite only the
packed value (the parsed alpha component is discarded). -/
def setHexStr (mode : ColorMode) (s : ColorState) (hx : List Char) : Except ColorError ColorState :=
  (parseParameters mode (.hex hx) .undef .undef .undef).map fun o => { s with c := o.color }


theorem jsBin_some {f : ℚ → ℚ → ℚ} {a b : JSVal} {q : ℚ}
    (h : (jsBin f a b).toNumber = some q) :
    ∃ x y, a.toNumber = some x ∧ b.toNumber = some y ∧ q = f x y := by
  cases a <;> cases b <;> simp_all [jsBin, JSVal.toNumber]

theorem jsAdd_some {a b : JSVal} {q : ℚ} (h : (jsAdd a b).toNumber = some q) :
    ∃ x y, a.toNumber = some x ∧ b.toNumber = some y ∧ q = x + y := jsBin_some h

theorem jsSub_some {a b : JSVal} {q : ℚ} (h : (jsSub a b).toNumber = some q) :
    ∃ x y, a.toNumber = some x ∧ b.toNumber = some y ∧ q = x - y := jsBin_some h

theorem jsMul_some {a b : JSVal} {q : ℚ} (h : (jsMul a b).toNumber = some q) :
    ∃ x y, a.toNumber = some x ∧ b.toNumber = some y ∧ q = x * y := jsBin_some h

theorem jsDiv_some {a b : JSVal} {q : ℚ} (h : (jsDiv a b).toNumber = some q) :
    ∃ x y, a.toNumber = some x ∧ b.toNumber = some y ∧ y ≠ 0 ∧ q = x / y := by
  cases a with
  | undef => simp [jsDiv, JSVal.toNumber] at h
  | nan => simp [jsDiv, JSVal.toNumber] at h
  | num x =>
    cases b with
    | undef => simp [jsDiv, JSVal.toNumber] at h
    | nan => simp [jsDiv, JSVal.toNumber] at h
    | num y =>
      by_cases hy : y = 0
      · simp [jsDiv, JSVal.toNumber, hy] at h
      · simp only [jsDiv, JSVal.toNumber, if_neg hy, Option.some.injEq] at h
        exact ⟨x, y, rfl, rfl, hy, h.symm⟩

theorem jsMod_some {a b : JSVal} {q : ℚ} (h : (jsMod a b).toNumber = some q) :
    ∃ x y, a.toNumber = some x ∧ b.toNumber = some y ∧ y ≠ 0 ∧
      q = x - y * (truncQ (x / y) : ℚ) := by
  cases a with
  | undef => simp [jsMod, JSVal.toNumber] at h
  | nan => simp [jsMod, JSVal.toNumber] at h
  | num x =>
    cases b with
    | undef => simp [jsMod, JSVal.toNumber] at h
    | nan => simp [jsMod, JSVal.toNumber] at h
    | num y =>
      by_cases hy : y = 0
      · simp [jsMod, JSVal.toNumber, hy] at h
      · simp only [jsMod, JSVal.toNumber, if_neg hy, Option.some.injEq] at h
        exact ⟨x, y, rfl, rfl, hy, h.symm⟩

theorem jsAbs_some {a : JSVal} {q : ℚ} (h : (jsAbs a).toNumber = some q) :
    ∃ x, a.toNumber = some x ∧ q = |x| := by
  cases a with
  | undef => simp [jsAbs, JSVal.toNumber] at h
  | nan => simp [jsAbs, JSVal.toNumber] at h
  | num x =>
    refine ⟨x, rfl, ?_⟩
    simp only [jsAbs, JSVal.toNumber, Option.some.injEq] at h
    rw [← h]
    split_ifs with hx
    · exact (abs_of_neg hx).symm
    · exact (abs_of_nonneg (le_of_not_lt hx)).symm

theorem jsMin_some {a b : JSVal} {q : ℚ} (h : (jsMin a b).toNumber = some q) :
    ∃ x y, a.toNumber = some x ∧ b.toNumber = some y ∧ q = min x y := by
  cases a <;> cases b <;> simp_all [jsMin, JSVal.toNumber]
  rw [min_def]
  exact h.symm

theorem jsMax_some {a b : JSVal} {q : ℚ} (h : (jsMax a b).toNumber = some q) :
    ∃ x y, a.toNumber = some x ∧ b.toNumber = some y ∧ q = max x y := by
  cases a <;> cases b <;> simp_all [jsMax, JSVal.toNumber]
  rw [max_def]
  exact h.symm

theorem clamp_some_bound {v : JSVal} {mx q : ℚ} (hmx : 0 ≤ mx)
    (h : (clamp v (.num mx) (.num 0)).toNumber = some q) : 0 ≤ q ∧ q ≤ mx := by
  rcases jsMax_some h with ⟨z, y, hz, hy, hq⟩
  simp only [JSVal.toNumber, Option.some.injEq] at hz
  rcases jsMin_some hy with ⟨u, w, hu, hw, hyv⟩
  simp only [JSVal.toNumber, Option.some.injEq] at hw
  subst hq hyv
  rw [← hz, ← hw]
  constructor
  · exact le_max_left 0 _
  · exact max_le hmx (min_le_right u mx)

theorem hslL_bound {l : JSVal} {ql : ℚ} (h : (hslL l).toNumber = some ql) :
    0 ≤ ql ∧ ql ≤ 1 := by
  rcases jsDiv_some h with ⟨x, y, hx, hy, hy0, hq⟩
  simp only [JSVal.toNumber, Option.some.injEq] at hy
  rcases clamp_some_bound (by norm_num) hx with ⟨h1, h2⟩
  subst hq
  rw [← hy]
  constructor
  · positivity
  · rw [div_le_one (by norm_num)]
    linarith

theorem hslS_bound {s : JSVal} {qs : ℚ} (h : (hslS s).toNumber = some qs) :
    0 ≤ qs ∧ qs ≤ 1 := by
  rcases jsDiv_some h with ⟨x, y, hx, hy, hy0, hq⟩
  simp only [JSVal.toNumber, Option.some.injEq] at hy
  rcases clamp_some_bound (by norm_num) hx with ⟨h1, h2⟩
  subst hq
  rw [← hy]
  constructor
  · positivity
  · rw [div_le_one (by norm_num)]
    linarith

theorem hslC_some {s l : JSVal} {qc : ℚ} (h : (hslC s l).toNumber = some qc) :
    ∃ ql, (hslL l).toNumber = some ql ∧ 0 ≤ ql ∧ ql ≤ 1 ∧
      0 ≤ qc ∧ qc ≤ 2 * ql ∧ qc ≤ 2 - 2 * ql := by
  rcases jsMul_some h with ⟨u, qs, hu, hqs, hq⟩
  rcases jsSub_some hu with ⟨one, w, hone, hw, hu2⟩
  simp only [JSVal.toNumber, Option.some.injEq] at hone
  rcases jsAbs_some hw with ⟨z, hz, hwv⟩
  rcases jsSub_some hz with ⟨t2, one2, ht2, hone2, hzv⟩
  simp only [JSVal.toNumber, Option.some.injEq] at hone2
  rcases jsMul_some ht2 with ⟨two, ql, htwo, hql, ht2v⟩
  simp only [JSVal.toNumber, Option.some.injEq] at htwo
  rcases hslL_bound hql with ⟨hl0, hl1⟩
  rcases hslS_bound hqs with ⟨hs0, hs1⟩
  refine ⟨ql, hql, hl0, hl1, ?_, ?_, ?_⟩
  all_goals subst hq hu2 hwv hzv ht2v
  all_goals rw [← hone, ← hone2, ← htwo]
  · have h1 : |2 * ql - 1| ≤ 1 := by
      rw [abs_le]
      constructor <;> linarith
    nlinarith [abs_nonneg (2 * ql - 1)]
  · have h1 : 1 - 2 * ql ≤ |2 * ql - 1| := by
      rw [abs_sub_comm]
      exact le_abs_self _
    nlinarith [abs_nonneg (2 * ql - 1)]
  · have h1 : 2 * ql - 1 ≤ |2 * ql - 1| := le_abs_self _
    nlinarith [abs_nonneg (2 * ql - 1)]

theorem hslX_some {h s l : JSVal} {qx : ℚ} (hx : (hslX h s l).toNumber = some qx) :
    ∃ qc, (hslC s l).toNumber = some qc ∧ 0 ≤ qx ∧ qx ≤ qc := by
  rcases jsMul_some hx with ⟨qc, u, hqc, hu, hq⟩
  rcases jsSub_some hu with ⟨one, w, hone, hw, hu2⟩
  simp only [JSVal.toNumber, Option.some.injEq] at hone
  rcases jsAbs_some hw with ⟨z, hz, hwv⟩
  rcases jsSub_some hz with ⟨wm, one2, hwm, hone2, hzv⟩
  simp only [JSVal.toNumber, Option.some.injEq] at hone2
  rcases jsMod_some hwm with ⟨v, two, hv, htwo, htwo0, hwmv⟩
  simp only [JSVal.toNumber, Option.some.injEq] at htwo
  rcases jsDiv_some hv with ⟨qh, sixty, hqh, hsixty, hsixty0, hvv⟩
  simp only [JSVal.toNumber, Option.some.injEq] at hsixty
  rcases clamp_some_bound (by norm_num) hqh with ⟨hh0, hh1⟩
  have hv0 : 0 ≤ v := by
    subst hvv
    rw [← hsixty]
    positivity
  have hwm_bound : 0 ≤ wm ∧ wm < 2 := by
    subst hwmv
    rw [← htwo]
    have htr : truncQ (v / 2) = ⌊v / 2⌋ := by
      rw [truncQ, if_pos (by positivity)]
    rw [htr]
    constructor
    · have := Int.floor_le (v / 2)
      linarith
    · have := Int.lt_floor_add_one (v / 2)
      push_cast at this ⊢
      linarith
  have hcb := hslC_some hqc
  rcases hcb with ⟨ql, _, _, _, hc0, _, _⟩
  have hu_bound : 0 ≤ u ∧ u ≤ 1 := by
    subst hu2 hwv hzv
    rw [← hone, ← hone2]
    constructor
    · rw [sub_nonneg, abs_le]
      constructor <;> linarith [hwm_bound.1, hwm_bound.2]
    · linarith [abs_nonneg (wm - 1)]
  subst hq
  exact ⟨qc, hqc, mul_nonneg hc0 hu_bound.1,
    by nlinarith [hu_bound.1, hu_bound.2, hc0]⟩

theorem hslM_some {s l : JSVal} {qm : ℚ} (hm : (hslM s l).toNumber = some qm) :
    ∃ ql qc, (hslL l).toNumber = some ql ∧ (hslC s l).toNumber = some qc ∧
      qm = ql - qc / 2 := by
  rcases jsSub_some hm with ⟨ql, w, hql, hw, hq⟩
  rcases jsDiv_some hw with ⟨qc, two, hqc, htwo, htwo0, hwv⟩
  simp only [JSVal.toNumber, Option.some.injEq] at htwo
  subst hq hwv
  rw [← htwo]
  exact ⟨ql, qc, hql, hqc, rfl⟩

theorem toI32_range_of {v : JSVal} (hv : ∀ q, v.toNumber = some q → 0 ≤ q ∧ q ≤ 255) :
    0 ≤ toI32 v ∧ toI32 v ≤ 255 := by
  cases v with
  | undef => simp [toI32, JSVal.toNumber]
  | nan => simp [toI32, JSVal.toNumber]
  | num q =>
    rcases hv q rfl with ⟨h0, h1⟩
    have ht : truncQ q = ⌊q⌋ := by rw [truncQ, if_pos h0]
    have hf0 : (0 : ℤ) ≤ ⌊q⌋ := by
      rw [Int.le_floor]
      exact_mod_cast h0
    have hf1 : ⌊q⌋ ≤ 255 := by
      have := Int.floor_le_floor h1
      simpa using this
    simp only [toI32, JSVal.toNumber, ht]
    omega

theorem hslChan_range (h s l t : JSVal)
    (ht : t = JSVal.num 0 ∨ t = hslC s l ∨ t = hslX h s l) :
    0 ≤ toI32 (hslChan t (hslM s l)) ∧ toI32 (hslChan t (hslM s l)) ≤ 255 := by
  apply toI32_range_of
  intro q hq
  rcases jsMul_some hq with ⟨w, c255, hw, hc255, hqv⟩
  simp only [JSVal.toNumber, Option.some.injEq] at hc255
  rcases jsAdd_some hw with ⟨qt, qm, hqt, hqm, hwv⟩
  rcases hslM_some hqm with ⟨ql, qc, hql, hqc, hqmv⟩
  rcases hslC_some hqc with ⟨ql2, hql2, hl0, hl1, hc0, hc2l, hc22l⟩
  have hlleq : ql2 = ql := by
    rw [hql] at hql2
    injection hql2 with hh
    exact hh.symm
  subst hlleq
  have hsum : 0 ≤ qt + qm ∧ qt + qm ≤ 1 := by
    rcases ht with h0 | hC | hX
    · subst h0
      simp only [JSVal.toNumber, Option.some.injEq] at hqt
      subst hqmv
      rw [← hqt]
      constructor <;> linarith
    · subst hC
      have : qc = qt := by
        rw [hqc] at hqt
        injection hqt
      subst this
      subst hqmv
      constructor <;> linarith
    · subst hX
      rcases hslX_some hqt with ⟨qc2, hqc2, hx0, hxc⟩
      have : qc2 = qc := by
        rw [hqc] at hqc2
        injection hqc2 with hh
        exact hh.symm
      subst this
      subst hqmv
      constructor <;> linarith
  subst hqv hwv
  rw [← hc255]
  constructor
  · nlinarith [hsum.1]
  · nlinarith [hsum.1, hsum.2]

/-- The stored packed value is a genuine unsigned 24-bit integer. -/
def PackedOK (v : JSVal) : Prop := ∃ n : ℕ, n < 2 ^ 24 ∧ v = .num (n : ℚ)

theorem u32_natCast (n : ℕ) (h : n < 2 ^ 32) : u32 (n : ℤ) = n := by
  simp only [u32]
  omega

theorem i32_small (n : ℕ) (h : n < 2 ^ 31) : i32 n = (n : ℤ) := by
  simp only [i32]
  rw [if_pos h]

theorem zOr_natCast (m n : ℕ) (hm : m < 2 ^ 31) (hn : n < 2 ^ 31) :
    zOr (m : ℤ) (n : ℤ) = ((m ||| n : ℕ) : ℤ) := by
  rw [zOr, u32_natCast m (by omega), u32_natCast n (by omega),
    i32_small _ (Nat.or_lt_two_pow hm hn)]

theorem zAnd_natCast (m n : ℕ) (hm : m < 2 ^ 31) (hn : n < 2 ^ 32) :
    zAnd (m : ℤ) (n : ℤ) = ((m &&& n : ℕ) : ℤ) := by
  rw [zAnd, u32_natCast m (by omega), u32_natCast n hn,
    i32_small _ (lt_of_le_of_lt Nat.and_le_left hm)]

theorem zShl_natCast (m : ℕ) (k : ℕ) (hm : m < 2 ^ 32) (h : m <<< (k % 32) < 2 ^ 31) :
    zShl (m : ℤ) k = ((m <<< (k % 32) : ℕ) : ℤ) := by
  rw [zShl, u32_natCast m hm, Nat.mod_eq_of_lt (by omega), i32_small _ h]

theorem zShr_natCast (m : ℕ) (k : ℕ) (hm : m < 2 ^ 31) :
    zShr (m : ℤ) k = ((m >>> (k % 32) : ℕ) : ℤ) := by
  rw [zShr, u32_natCast m (by omega), i32_small _ hm, Nat.shiftRight_eq_div_pow]
  have h2 : ((2 : ℤ) ^ (k % 32)) = ((2 ^ (k % 32) : ℕ) : ℤ) := by push_cast; ring
  rw [h2]
  rfl

theorem packNat_lt (r g b : ℕ) (hr : r < 256) (hg : g < 256) (hb : b < 256) :
    (r <<< 16 ||| g <<< 8) ||| b < 2 ^ 24 := by
  apply Nat.or_lt_two_pow
  · apply Nat.or_lt_two_pow
    · calc r <<< 16 = r * 2 ^ 16 := Nat.shiftLeft_eq r 16
      _ < 2 ^ 24 := by omega
    · calc g <<< 8 = g * 2 ^ 8 := Nat.shiftLeft_eq g 8
      _ < 2 ^ 24 := by omega
  · omega

theorem packExpr_natEval (r g b : ℕ) (hr : r ≤ 255) (hg : g ≤ 255) (hb : b ≤ 255) :
    zOr (zOr (zShl (r : ℤ) 16) (zShl (g : ℤ) 8)) (b : ℤ) =
      (((r <<< 16 ||| g <<< 8) ||| b : ℕ) : ℤ) := by
  rw [zShl_natCast r 16 (by omega) (by rw [Nat.shiftLeft_eq]; norm_num; omega),
    zShl_natCast g 8 (by omega) (by rw [Nat.shiftLeft_eq]; norm_num; omega)]
  have e16 : (16 : ℕ) % 32 = 16 := by norm_num
  have e8 : (8 : ℕ) % 32 = 8 := by norm_num
  rw [e16, e8]
  rw [zOr_natCast _ _ (by rw [Nat.shiftLeft_eq]; omega) (by rw [Nat.shiftLeft_eq]; omega),
    zOr_natCast _ _ (Nat.or_lt_two_pow (by rw [Nat.shiftLeft_eq]; omega)
      (by rw [Nat.shiftLeft_eq]; omega)) (by omega)]

theorem packedOK_packExpr (R G B : ℤ) (hR0 : 0 ≤ R) (hR : R ≤ 255) (hG0 : 0 ≤ G)
    (hG : G ≤ 255) (hB0 : 0 ≤ B) (hB : B ≤ 255) :
    PackedOK (.num ((zOr (zOr (zShl R 16) (zShl G 8)) B : ℤ) : ℚ)) := by
  have hRc : R = ((R.toNat : ℕ) : ℤ) := (Int.toNat_of_nonneg hR0).symm
  have hGc : G = ((G.toNat : ℕ) : ℤ) := (Int.toNat_of_nonneg hG0).symm
  have hBc : B = ((B.toNat : ℕ) : ℤ) := (Int.toNat_of_nonneg hB0).symm
  have hr1 : R.toNat ≤ 255 := by omega
  have hg1 : G.toNat ≤ 255 := by omega
  have hb1 : B.toNat ≤ 255 := by omega
  rw [hRc, hGc, hBc, packExpr_natEval R.toNat G.toNat B.toNat hr1 hg1 hb1]
  exact ⟨(R.toNat <<< 16 ||| G.toNat <<< 8) ||| B.toNat,
    packNat_lt _ _ _ (by omega) (by omega) (by omega), by push_cast; ring_nf⟩

theorem getRGB_packedOK (r g b a : JSVal) : PackedOK (getColorValueFromRGB r g b a).color := by
  have hr := toI32_range_of (v := clamp r (.num 255) (.num 0))
    (fun q hq => clamp_some_bound (by norm_num) hq)
  have hg := toI32_range_of (v := clamp g (.num 255) (.num 0))
    (fun q hq => clamp_some_bound (by norm_num) hq)
  have hb := toI32_range_of (v := clamp b (.num 255) (.num 0))
    (fun q hq => clamp_some_bound (by norm_num) hq)
  exact packedOK_packExpr _ _ _ hr.1 hr.2 hg.1 hg.2 hb.1 hb.2

theorem getHSL_packedOK (h s l a : JSVal) : PackedOK (getColorValueFromHSL h s l a).color := by
  simp only [getColorValueFromHSL]
  split
  · exact packedOK_packExpr _ _ _
      (hslChan_range h s l _ (Or.inr (Or.inl rfl))).1 (hslChan_range h s l _ (Or.inr (Or.inl rfl))).2
      (hslChan_range h s l _ (Or.inr (Or.inr rfl))).1 (hslChan_range h s l _ (Or.inr (Or.inr rfl))).2
      (hslChan_range h s l _ (Or.inl rfl)).1 (hslChan_range h s l _ (Or.inl rfl)).2
  · split
    · exact packedOK_packExpr _ _ _
        (hslChan_range h s l _ (Or.inr (Or.inr rfl))).1 (hslChan_range h s l _ (Or.inr (Or.inr rfl))).2
        (hslChan_range h s l _ (Or.inr (Or.inl rfl))).1 (hslChan_range h s l _ (Or.inr (Or.inl rfl))).2
        (hslChan_range h s l _ (Or.inl rfl)).1 (hslChan_range h s l _ (Or.inl rfl)).2
    · split
      · exact packedOK_packExpr _ _ _
          (hslChan_range h s l _ (Or.inl rfl)).1 (hslChan_range h s l _ (Or.inl rfl)).2
          (hslChan_range h s l _ (Or.inr (Or.inl rfl))).1 (hslChan_range h s l _ (Or.inr (Or.inl rfl))).2
          (hslChan_range h s l _ (Or.inr (Or.inr rfl))).1 (hslChan_range h s l _ (Or.inr (Or.inr rfl))).2
      · split
        · exact packedOK_packExpr _ _ _
            (hslChan_range h s l _ (Or.inl rfl)).1 (hslChan_range h s l _ (Or.inl rfl)).2
            (hslChan_range h s l _ (Or.inr (Or.inr rfl))).1 (hslChan_range h s l _ (Or.inr (Or.inr rfl))).2
            (hslChan_range h s l _ (Or.inr (Or.inl rfl))).1 (hslChan_range h s l _ (Or.inr (Or.inl rfl))).2
        · split
          · exact packedOK_packExpr _ _ _
              (hslChan_range h s l _ (Or.inr (Or.inl rfl))).1 (hslChan_range h s l _ (Or.inr (Or.inl rfl))).2
              (hslChan_range h s l _ (Or.inl rfl)).1 (hslChan_range h s l _ (Or.inl rfl)).2
              (hslChan_range h s l _ (Or.inr (Or.inr rfl))).1 (hslChan_range h s l _ (Or.inr (Or.inr rfl))).2
          · exact packedOK_packExpr _ _ _
              (hslChan_range h s l _ (Or.inl rfl)).1 (hslChan_range h s l _ (Or.inl rfl)).2
              (hslChan_range h s l _ (Or.inl rfl)).1 (hslChan_range h s l _ (Or.inl rfl)).2
              (hslChan_range h s l _ (Or.inl rfl)).1 (hslChan_range h s l _ (Or.inl rfl)).2

theorem byteHi (r g b : ℕ) (hr : r < 256) (hg : g < 256) (hb : b < 256) :
    (((r <<< 16 ||| g <<< 8) ||| b) &&& 0xff0000) >>> 16 = r := by
  have hm : (0xff0000 : ℕ) = (2 ^ 8 - 1) <<< 16 := by decide
  apply Nat.eq_of_testBit_eq
  intro i
  rw [hm]
  simp only [Nat.testBit_shiftRight, Nat.testBit_and, Nat.testBit_or, Nat.testBit_shiftLeft,
    Nat.testBit_two_pow_sub_one]
  by_cases hij : i < 8
  · have h1 : 16 + i - 16 = i := by omega
    have hbb : b.testBit (16 + i) = false :=
      Nat.testBit_eq_false_of_lt (lt_of_lt_of_le hb (by
        calc (256 : ℕ) = 2 ^ 8 := by norm_num
        _ ≤ 2 ^ (16 + i) := Nat.pow_le_pow_right (by norm_num) (by omega)))
    have hgg : g.testBit (16 + i - 8) = false :=
      Nat.testBit_eq_false_of_lt (lt_of_lt_of_le hg (by
        calc (256 : ℕ) = 2 ^ 8 := by norm_num
        _ ≤ 2 ^ (16 + i - 8) := Nat.pow_le_pow_right (by norm_num) (by omega)))
    simp [h1, hbb, hgg, hij]
  · have hrr : r.testBit i = false :=
      Nat.testBit_eq_false_of_lt (lt_of_lt_of_le hr (by
        calc (256 : ℕ) = 2 ^ 8 := by norm_num
        _ ≤ 2 ^ i := Nat.pow_le_pow_right (by norm_num) (by omega)))
    simp [hij, hrr]

theorem byteMid (r g b : ℕ) (hr : r < 256) (hg : g < 256) (hb : b < 256) :
    (((r <<< 16 ||| g <<< 8) ||| b) &&& 0xff00) >>> 8 = g := by
  have hm : (0xff00 : ℕ) = (2 ^ 8 - 1) <<< 8 := by decide
  apply Nat.eq_of_testBit_eq
  intro i
  rw [hm]
  simp only [Nat.testBit_shiftRight, Nat.testBit_and, Nat.testBit_or, Nat.testBit_shiftLeft,
    Nat.testBit_two_pow_sub_one]
  by_cases hij : i < 8
  · have h1 : 8 + i - 8 = i := by omega
    have hnr : ¬ (8 + i ≥ 16) := by omega
    have hbb : b.testBit (8 + i) = false :=
      Nat.testBit_eq_false_of_lt (lt_of_lt_of_le hb (by
        calc (256 : ℕ) = 2 ^ 8 := by norm_num
        _ ≤ 2 ^ (8 + i) := Nat.pow_le_pow_right (by norm_num) (by omega)))
    simp [h1, hnr, hbb, hij]
  · have hgg : g.testBit i = false :=
      Nat.testBit_eq_false_of_lt (lt_of_lt_of_le hg (by
        calc (256 : ℕ) = 2 ^ 8 := by norm_num
        _ ≤ 2 ^ i := Nat.pow_le_pow_right (by norm_num) (by omega)))
    simp [hij, hgg]

theorem byteLo (r g b : ℕ) (hr : r < 256) (hg : g < 256) (hb : b < 256) :
    ((r <<< 16 ||| g <<< 8) ||| b) &&& 0xff = b := by
  have hm : (0xff : ℕ) = 2 ^ 8 - 1 := by decide
  apply Nat.eq_of_testBit_eq
  intro i
  rw [hm]
  simp only [Nat.testBit_and, Nat.testBit_or, Nat.testBit_shiftLeft,
    Nat.testBit_two_pow_sub_one]
  by_cases hij : i < 8
  · have hnr : ¬ (i ≥ 16) := by omega
    have hng : ¬ (i ≥ 8) := by omega
    simp [hnr, hng, hij]
  · have hbb : b.testBit i = false :=
      Nat.testBit_eq_false_of_lt (lt_of_lt_of_le hb (by
        calc (256 : ℕ) = 2 ^ 8 := by norm_num
        _ ≤ 2 ^ i := Nat.pow_le_pow_right (by norm_num) (by omega)))
    simp [hij, hbb]

theorem toI32_natCast (n : ℕ) (h : n < 2 ^ 31) : toI32 (.num (n : ℚ)) = (n : ℤ) := by
  simp only [toI32, JSVal.toNumber, truncQ]
  rw [if_pos (by positivity), Int.floor_natCast]
  omega

theorem clamp_of_mem (q mx : ℚ) (h1 : 0 ≤ q) (h2 : q ≤ mx) :
    clamp (.num q) (.num mx) (.num 0) = .num q := by
  simp only [clamp, jsMin, jsMax, JSVal.toNumber]
  rw [if_pos h2, if_pos h1]

theorem getRGB_natEval (r g b a : ℕ) (hr : r ≤ 255) (hg : g ≤ 255) (hb : b ≤ 255) (ha : a ≤ 255) :
    getColorValueFromRGB (.num r) (.num g) (.num b) (.num a) =
      { color := .num ((((r <<< 16 ||| g <<< 8) ||| b : ℕ) : ℚ)), alpha := .num (a : ℚ) } := by
  simp only [getColorValueFromRGB]
  rw [clamp_of_mem _ _ (by positivity) (by exact_mod_cast hr),
    clamp_of_mem _ _ (by positivity) (by exact_mod_cast hg),
    clamp_of_mem _ _ (by positivity) (by exact_mod_cast hb),
    clamp_of_mem _ _ (by positivity) (by exact_mod_cast ha),
    toI32_natCast r (by omega), toI32_natCast g (by omega), toI32_natCast b (by omega),
    packExpr_natEval r g b hr hg hb]
  push_cast
  ring_nf

theorem rgbObjOf_packEval (P : ℕ) (h : P < 2 ^ 31) :
    rgbObjOf (.num (P : ℚ)) =
      { color := .num (P : ℚ), red := (((P &&& 0xff0000) >>> 16 : ℕ) : ℤ),
        green := (((P &&& 0xff00) >>> 8 : ℕ) : ℤ), blue := ((P &&& 0xff : ℕ) : ℤ) } := by
  have m1 : (0xff0000 : ℤ) = ((0xff0000 : ℕ) : ℤ) := by norm_num
  have m2 : (0xff00 : ℤ) = ((0xff00 : ℕ) : ℤ) := by norm_num
  have m3 : (0xff : ℤ) = ((0xff : ℕ) : ℤ) := by norm_num
  simp only [rgbObjOf]
  rw [toI32_natCast P h, m1, m2, m3,
    zAnd_natCast P _ h (by norm_num), zAnd_natCast P _ h (by norm_num),
    zAnd_natCast P _ h (by norm_num),
    zShr_natCast _ 16 (lt_of_le_of_lt Nat.and_le_left h),
    zShr_natCast _ 8 (lt_of_le_of_lt Nat.and_le_left h)]


/-- The cached RGB view, when present, is exactly the decode of its recorded packed value. -/
def RInv (s : ColorState) : Prop := ∀ o, s.lrgb = some o → o = rgbObjOf o.color

/-- The cached HSL view, when present, is exactly the conversion of its recorded packed value. -/
def HInv (s : ColorState) : Prop := ∀ o, s.lhsl = some o → o = hslObjOf o.color

/-- Both caches are coherent with the packed values recorded at fill time. -/
def CacheInv (s : ColorState) : Prop := RInv s ∧ HInv s

theorem jsNeq_eq_false {a b : JSVal} (h : jsNeq a b = false) : a = b := by
  cases a <;> cases b <;> simp_all [jsNeq]

theorem getRgb_state (s : ColorState) :
    (getRgb s).2.c = s.c ∧ (getRgb s).2.a = s.a ∧ (getRgb s).2.lhsl = s.lhsl := by
  unfold getRgb
  cases hl : s.lrgb with
  | none => simp
  | some o =>
    by_cases hne : jsNeq o.color s.c = true <;> simp [hne]

theorem getRgb_fst {s : ColorState} (hR : RInv s) : (getRgb s).1 = rgbObjOf s.c := by
  unfold getRgb
  cases hl : s.lrgb with
  | none => simp
  | some o =>
    by_cases hne : jsNeq o.color s.c = true
    · simp [hne]
    · have heq : o.color = s.c := jsNeq_eq_false (by simpa using hne)
      simp only [hne, if_false, Bool.false_eq_true]
      conv_lhs => rw [hR o hl]
      rw [heq]

theorem getRgb_RInv {s : ColorState} (hR : RInv s) : RInv (getRgb s).2 := by
  unfold getRgb
  cases hl : s.lrgb with
  | none =>
    intro o ho
    simp at ho
    rw [← ho]
    rfl
  | some o =>
    by_cases hne : jsNeq o.color s.c = true
    · intro o2 ho2
      simp [hne] at ho2
      rw [← ho2]
      rfl
    · intro o2 ho2
      simp [hne] at ho2
      exact hR o2 ho2

theorem getRgb_HInv {s : ColorState} (hH : HInv s) : HInv (getRgb s).2 := by
  intro o ho
  rw [(getRgb_state s).2.2] at ho
  exact hH o ho

theorem getHsl_fresh_eq {s : ColorState} (hR : RInv s) :
    hslComputeFields (getRgb s).1.red (getRgb (getRgb s).2).1.green
      (getRgb (getRgb (getRgb s).2).2).1.blue s.c = hslObjOf s.c := by
  have h1 : (getRgb s).1 = rgbObjOf s.c := getRgb_fst hR
  have h1R : RInv (getRgb s).2 := getRgb_RInv hR
  have h1c : (getRgb s).2.c = s.c := (getRgb_state s).1
  have h2 : (getRgb (getRgb s).2).1 = rgbObjOf s.c := by
    rw [getRgb_fst h1R, h1c]
  have h2R : RInv (getRgb (getRgb s).2).2 := getRgb_RInv h1R
  have h2c : (getRgb (getRgb s).2).2.c = s.c := by
    rw [(getRgb_state _).1, h1c]
  have h3 : (getRgb (getRgb (getRgb s).2).2).1 = rgbObjOf s.c := by
    rw [getRgb_fst h2R, h2c]
  rw [h1, h2, h3]
  rfl

theorem getHsl_fst {s : ColorState} (hR : RInv s) (hH : HInv s) :
    (getHsl s).1 = hslObjOf s.c := by
  unfold getHsl
  cases hh : s.lhsl with
  | none => simpa using getHsl_fresh_eq hR
  | some o =>
    by_cases hne : jsNeq o.color s.c = true
    · simpa [hne] using getHsl_fresh_eq hR
    · have heq : o.color = s.c := jsNeq_eq_false (by simpa using hne)
      simp only [hne, if_false, Bool.false_eq_true]
      conv_lhs => rw [hH o hh]
      rw [heq]

theorem getHsl_state (s : ColorState) :
    (getHsl s).2.c = s.c ∧ (getHsl s).2.a = s.a := by
  have c1 := (getRgb_state s).1
  have a1 := (getRgb_state s).2.1
  have c2 := (getRgb_state (getRgb s).2).1
  have a2 := (getRgb_state (getRgb s).2).2.1
  have c3 := (getRgb_state (getRgb (getRgb s).2).2).1
  have a3 := (getRgb_state (getRgb (getRgb s).2).2).2.1
  unfold getHsl
  cases hh : s.lhsl with
  | none =>
    constructor
    · simpa using by rw [c3, c2, c1]
    · simpa using by rw [a3, a2, a1]
  | some o =>
    by_cases hne : jsNeq o.color s.c = true
    · constructor
      · simpa [hne] using by rw [c3, c2, c1]
      · simpa [hne] using by rw [a3, a2, a1]
    · simp [hne]

theorem getHsl_RInv {s : ColorState} (hR : RInv s) : RInv (getHsl s).2 := by
  have hR3 : RInv (getRgb (getRgb (getRgb s).2).2).2 :=
    getRgb_RInv (getRgb_RInv (getRgb_RInv hR))
  unfold getHsl
  cases hh : s.lhsl with
  | none =>
    intro o2 ho2
    simp at ho2
    exact hR3 o2 ho2
  | some o =>
    by_cases hne : jsNeq o.color s.c = true
    · intro o2 ho2
      simp [hne] at ho2
      exact hR3 o2 ho2
    · intro o2 ho2
      simp [hne] at ho2
      exact hR o2 ho2

theorem getHsl_HInv {s : ColorState} (hR : RInv s) (hH : HInv s) : HInv (getHsl s).2 := by
  have hfresh := getHsl_fresh_eq hR
  have c3 : (getRgb (getRgb (getRgb s).2).2).2.lhsl = s.lhsl := by
    rw [(getRgb_state _).2.2, (getRgb_state _).2.2, (getRgb_state _).2.2]
  unfold getHsl
  cases hh : s.lhsl with
  | none =>
    intro o2 ho2
    simp at ho2
    rw [← ho2, hfresh]
    rfl
  | some o =>
    by_cases hne : jsNeq o.color s.c = true
    · intro o2 ho2
      simp [hne] at ho2
      rw [← ho2, hfresh]
      rfl
    · intro o2 ho2
      simp [hne] at ho2
      exact hH o2 ho2

theorem setRed_a (s : ColorState) (v : ℚ) : (setRed s v).a = s.a := by
  unfold setRed
  simp only []
  rw [(getRgb_state _).2.1, (getRgb_state _).2.1]

theorem setGreen_a (s : ColorState) (v : ℚ) : (setGreen s v).a = s.a := by
  unfold setGreen
  simp only []
  rw [(getRgb_state _).2.1, (getRgb_state _).2.1]

theorem setBlue_a (s : ColorState) (v : ℚ) : (setBlue s v).a = s.a := by
  unfold setBlue
  simp only []
  rw [(getRgb_state _).2.1, (getRgb_state _).2.1]

theorem setHue_a (s : ColorState) (v : ℚ) : (setHue s v).a = s.a := by
  unfold setHue
  simp only []
  rw [(getHsl_state _).2, (getHsl_state _).2]

theorem setSaturation_a (s : ColorState) (v : ℚ) : (setSaturation s v).a = s.a := by
  unfold setSaturation
  simp only []
  rw [(getHsl_state _).2, (getHsl_state _).2]

theorem setLightness_a (s : ColorState) (v : ℚ) : (setLightness s v).a = s.a := by
  unfold setLightness
  simp only []
  rw [(getHsl_state _).2, (getHsl_state _).2]

theorem setRed_CacheInv {s : ColorState} (h : CacheInv s) (v : ℚ) :
    CacheInv (setRed s v) := by
  rcases h with ⟨hR, hH⟩
  have hR2 : RInv (getRgb (getRgb s).2).2 := getRgb_RInv (getRgb_RInv hR)
  have hH2 : HInv (getRgb (getRgb s).2).2 := getRgb_HInv (getRgb_HInv hH)
  exact ⟨fun o ho => hR2 o ho, fun o ho => hH2 o ho⟩

theorem setRed_c (s : ColorState) (v : ℚ) :
    (setRed s v).c =
      (getColorValueFromRGB (.num v) (.num ((getRgb s).1.green : ℚ))
        (.num ((getRgb (getRgb s).2).1.blue : ℚ)) s.a).color := by
  unfold setRed
  simp only []
  rw [(getRgb_state _).2.1, (getRgb_state _).2.1]


theorem jsValToChars_natCast (a : ℕ) : jsValToChars (.num (a : ℚ)) = (Nat.repr a).data := by
  have hden : ((a : ℚ)).den = 1 := Rat.den_natCast a
  have hnum : ((a : ℚ)).num = (a : ℤ) := Rat.num_natCast a
  simp only [jsValToChars, hden, hnum, if_true]
  rw [if_neg (by omega)]
  simp

/-- Falsy-or-default: the substitute the resolver applies to a missing (or otherwise falsy)
numeric parameter. -/
def orDefault (v d : JSVal) : JSVal := if v.truthy then v else d

theorem hexDigit_ne_hash {c : Char} {v : ℕ} (h : hexDigitVal? c = some v) : ¬ c = '#' := by
  intro he
  rw [he] at h
  simp only [show hexDigitVal? ('#') = none from rfl] at h
  exact Option.noConfusion h

theorem c7six (c0 c1 c2 c3 c4 c5 : Char) (v0 v1 v2 v3 v4 v5 : ℕ)
    (h0 : hexDigitVal? c0 = some v0) (h1 : hexDigitVal? c1 = some v1)
    (h2 : hexDigitVal? c2 = some v2) (h3 : hexDigitVal? c3 = some v3)
    (h4 : hexDigitVal? c4 = some v4) (h5 : hexDigitVal? c5 = some v5) :
    jsParseIntHex ([ c0, c1, c2, c3, c4, c5 ]) =
      .num ((((16 * v0 + v1) * 65536 + (16 * v2 + v3) * 256 + (16 * v4 + v5) : ℕ) : ℚ)) := by
  simp only [jsParseIntHex, List.takeWhile_cons, h0, h1, h2, h3, h4, h5, Option.isSome_some,
    if_true, List.takeWhile_nil, List.foldl_cons, List.foldl_nil, Option.getD_some]
  norm_num
  ring_nf

theorem parse_hex3_shape (c0 c1 c2 : Char) (mode : ColorMode) (hne : ¬ c0 = '#') :
    parseParameters mode (.hex ([ c0, c1, c2 ])) .undef .undef .undef =
      .ok { color := jsParseIntHex ([ c0, c0, c1, c1, c2, c2 ]),
            alpha := jsParseIntHex ([ 'f', 'f' ]) } := by
  simp only [parseParameters]
  rw [show stripHash ([ c0, c1, c2 ]) = [ c0, c1, c2 ] from by simp [stripHash, hne]]
  norm_num [JSVal.truthy]

theorem parse_hex6_shape (c0 c1 c2 c3 c4 c5 : Char) (mode : ColorMode) (hne : ¬ c0 = '#') :
    parseParameters mode (.hex ([ c0, c1, c2, c3, c4, c5 ])) .undef .undef .undef =
      .ok { color := jsParseIntHex ([ c0, c1, c2, c3, c4, c5 ]),
            alpha := jsParseIntHex ([ 'f', 'f' ]) } := by
  simp only [parseParameters]
  rw [show stripHash ([ c0, c1, c2, c3, c4, c5 ]) = [ c0, c1, c2, c3, c4, c5 ] from by
    simp [stripHash, hne]]
  norm_num [JSVal.truthy]

theorem parse_hex8_shape (c0 c1 c2 c3 c4 c5 c6 c7 : Char) (mode : ColorMode) (hne : ¬ c0 = '#') :
    parseParameters mode (.hex ([ c0, c1, c2, c3, c4, c5, c6, c7 ])) .undef .undef .undef =
      .ok { color := jsParseIntHex ([ c0, c1, c2, c3, c4, c5 ]),
            alpha := jsParseIntHex ([ c6, c7 ]) } := by
  simp only [parseParameters]
  rw [show stripHash ([ c0, c1, c2, c3, c4, c5, c6, c7 ]) = [ c0, c1, c2, c3, c4, c5, c6, c7 ] from by
    simp [stripHash, hne]]
  norm_num [JSVal.truthy]

theorem rgbObjOf_black : rgbObjOf (.num 0) = { color := .num 0, red := 0, green := 0, blue := 0 } := by
  decide

theorem rgbObjOf_red255 :
    rgbObjOf (.num 0xff0000) = { color := .num 0xff0000, red := 255, green := 0, blue := 0 } := by
  decide

theorem hslFields_black :
    hslComputeFields 0 0 0 (.num 0) = { color := .num 0, hue := 0, saturation := 0, lightness := 0 } := by
  norm_num [hslComputeFields, qMin, qMax, qAbs, qMod, jsRound, roundTo1, truncQ]

theorem hslFields_red : hslComputeFields 255 0 0 (.num 0xff0000) =
    { color := .num 0xff0000, hue := 0, saturation := 100, lightness := 50 } := by
  norm_num [hslComputeFields, qMin, qMax, qAbs, qMod, jsRound, roundTo1, truncQ]

theorem conv_red255 : getColorValueFromRGB (.num 255) (.num 0) (.num 0) (.num 255) =
    { color := .num 0xff0000, alpha := .num 255 } := by
  norm_num [getColorValueFromRGB, clamp, jsMax, jsMin, jsBin, JSVal.toNumber, truncQ, toI32,
    u32, i32, zShl, zShr, zOr, zAnd]
  decide


/-- C1: the spec requires `Color(120, 100, 50)` under HSL mode to produce pure green
(rgb 0/255/0); the code's sextant comparisons (`0 <= h && h > 60`, ...) send every hue
above 60 into the first sextant, so the constructor packs 0xff0000 and the rgb view reads
pure red 255/0/0 instead — the spec is the intent and the code a slip (the spec itself
flags these comparisons as a latent defect). This theorem evaluates the code at the
failing input. -/
theorem claim1_hsl_sextants_give_red :
    parseParameters .HSL (.num 120) (.num 100) (.num 50) .undef =
        .ok { color := .num 0xff0000, alpha := .num 255 } ∧
      mkColor .HSL (.num 120) (.num 100) (.num 50) .undef =
        .ok { c := .num 0xff0000, a := .num 255, lrgb := none, lhsl := none } ∧
      rgbObjOf (.num 0xff0000) =
        { color := .num 0xff0000, red := 255, green := 0, blue := 0 } ∧
      ({ color := JSVal.num 0xff0000, red := 255, green := 0, blue := 0 } : RGBObject) ≠
        { color := JSVal.num 0xff0000, red := 0, green := 255, blue := 0 } := by
  have hp : parseParameters .HSL (.num 120) (.num 100) (.num 50) .undef =
      .ok { color := .num 0xff0000, alpha := .num 255 } := by
    norm_num [parseParameters, numericTail, getColorValueFromHSL, hslH, hslS, hslL, hslC, hslX,
      hslM, hslChan, clamp, jsMax, jsMin, jsDiv, jsMul, jsSub, jsAdd, jsAbs, jsMod, jsLe, jsLt,
      jsBin, JSVal.toNumber, JSVal.truthy, truncQ, toI32, u32, i32, zShl, zShr, zOr, zAnd]
    decide
  refine ⟨hp, ?_, by decide, by decide⟩
  simp [mkColor, hp, Except.map]

/-- C2: parsing a 4-digit short hex string duplicates each of the first three digits into
the packed RGB value (for any 4th digit `d`, `"f08" ++ d` packs to 0xff0088), and the
resulting alpha is derived from the supplied alpha parameter alone — the popped 4th digit
is discarded and the template `${alpha}${alpha}` (the decimal text of the parameter,
duplicated) is re-parsed as hex; concretely, alpha parameter 8 yields alpha byte
0x88 = 136. -/
theorem claim2_short_hex_alpha_from_parameter :
    (∀ (mode : ColorMode) (a : ℕ) (d : Char),
      parseParameters mode (.hex ([ 'f', '0', '8', d ])) .undef .undef (.num (a : ℚ)) =
        .ok { color := .num 0xff0088,
              alpha := jsParseIntHex ((Nat.repr a).data ++ (Nat.repr a).data) }) ∧
    jsParseIntHex ((Nat.repr 8).data ++ (Nat.repr 8).data) = .num 136 := by
  constructor
  · intro mode a d
    have h0 : parseParameters mode (.hex ([ 'f', '0', '8', d ])) .undef .undef (.num (a : ℚ)) =
        .ok { color := jsParseIntHex ([ 'f', 'f', '0', '0', '8', '8' ]),
              alpha := jsParseIntHex (jsValToChars (.num (a : ℚ)) ++ jsValToChars (.num (a : ℚ))) } :=
      rfl
    rw [h0, jsValToChars_natCast]
    rw [show jsParseIntHex ([ 'f', 'f', '0', '0', '8', '8' ]) = .num 0xff0088 from by decide]
  · decide

/-- C3: the alpha setter body is `this.alpha = alpha`, an assignment through the very
accessor being defined, so every invocation re-enters the setter and never returns — for
any fuel bound, the call fails to terminate (stack overflow in JavaScript), contradicting
the claim that setting the stored alpha value is a terminating no-op. -/
theorem claim3_alpha_setter_never_returns (n : ℕ) (s : ColorState) (v : JSVal) :
    setAlphaFuel n s v = none := by
  induction n with
  | zero => rfl
  | succ n ih => exact ih

/-- C4 counterexample: with ColorMode RGB, `Color(5, 0)` supplies b = 0, yet the resolver
treats the falsy 0 as missing and defaults green to a = 5, packing 0x050505 (328965)
instead of the 0x050005 (327685) the claim requires for a supplied green of 0. -/
theorem claim4_counterexample_zero_treated_missing :
    parseParameters .RGB (.num 5) (.num 0) .undef .undef =
        .ok { color := .num 328965, alpha := .num 255 } ∧
      (328965 : ℚ) ≠ 327685 := by
  constructor
  · norm_num [parseParameters, numericTail, getColorValueFromRGB, clamp, jsMax, jsMin, jsDiv,
      jsMul, jsSub, jsAdd, jsAbs, jsMod, jsLe, jsLt, jsBin, JSVal.toNumber, JSVal.truthy,
      truncQ, toI32, u32, i32, zShl, zShr, zOr, zAnd]
    decide
  · norm_num

/-- C4 amended: for every bare numeric input, parameters `b`, `c` and `alpha` that are
missing or falsy (0, NaN) are replaced by their defaults — `a` (RGB) or 50 (HSL) for `b`
and `c`, and 255 for `alpha` — and the resulting triple is passed to the matching
conversion, which clamps; truthy supplied values are used as given. -/
theorem claim4_numeric_interpretation_amended (mode : ColorMode) (a : ℚ) (b c alpha : JSVal) :
    parseParameters mode (.num a) b c alpha =
      .ok (match mode with
        | .RGB => getColorValueFromRGB (.num a) (orDefault b (.num a)) (orDefault c (.num a))
            (orDefault alpha (.num 255))
        | .HSL => getColorValueFromHSL (.num a) (orDefault b (.num 50)) (orDefault c (.num 50))
            (orDefault alpha (.num 255))) := by
  cases mode <;> rfl

/-- C5: a hexadecimal input raises the single InvalidFormat error exactly when its
stripped length is outside {3,4,6,8}; every bare numeric input resolves without error;
and for the concrete length-7 string "#1234567" the constructor propagates the error so
no instance is built. -/
theorem claim5_invalid_format_exactly_bad_lengths :
    (∀ (mode : ColorMode) (s : List Char) (b c alpha : JSVal),
      parseParameters mode (.hex s) b c alpha = .error .invalidFormat ↔
        ¬ ((stripHash s).length = 3 ∨ (stripHash s).length = 4 ∨ (stripHash s).length = 6 ∨
          (stripHash s).length = 8)) ∧
    (∀ (mode : ColorMode) (q : ℚ) (b c alpha : JSVal),
      parseParameters mode (.num q) b c alpha = .ok (numericTail mode (.num q) b c alpha)) ∧
    (mkColor .RGB (.hex ([ '#', '1', '2', '3', '4', '5', '6', '7' ])) .undef .undef .undef =
      .error .invalidFormat) := by
  refine ⟨?_, fun mode q b c alpha => rfl, by decide⟩
  intro mode s b c alpha
  simp only [parseParameters]
  by_cases hlen : ¬ (stripHash s).length = 3 ∧ ¬ (stripHash s).length = 4 ∧
      ¬ (stripHash s).length = 6 ∧ ¬ (stripHash s).length = 8
  · rw [if_pos hlen]
    simp only [true_iff, eq_self_iff_true]
    tauto
  · rw [if_neg hlen]
    constructor
    · intro h
      split_ifs at h <;> simp_all
    · intro h
      tauto

/-- C6: packing four byte values through `getColorValueFromRGB` and decoding the packed
color through the rgb view (and the stored alpha) reproduces all four values exactly:
the packed-to-RGB direction is lossless bit extraction. -/
theorem claim6_rgb_pack_decode_round_trip (r g b a : ℕ)
    (hr : r ≤ 255) (hg : g ≤ 255) (hb : b ≤ 255) (ha : a ≤ 255) :
    (getColorValueFromRGB (.num r) (.num g) (.num b) (.num a)).alpha = .num (a : ℚ) ∧
    (rgbObjOf ((getColorValueFromRGB (.num r) (.num g) (.num b) (.num a)).color)).red = (r : ℤ) ∧
    (rgbObjOf ((getColorValueFromRGB (.num r) (.num g) (.num b) (.num a)).color)).green = (g : ℤ) ∧
    (rgbObjOf ((getColorValueFromRGB (.num r) (.num g) (.num b) (.num a)).color)).blue = (b : ℤ) := by
  rw [getRGB_natEval r g b a hr hg hb ha]
  have hP : ((r <<< 16 ||| g <<< 8) ||| b) < 2 ^ 31 := by
    have := packNat_lt r g b (by omega) (by omega) (by omega)
    omega
  refine ⟨rfl, ?_, ?_, ?_⟩ <;> rw [rgbObjOf_packEval _ hP]
  · simp only []
    rw [byteHi r g b (by omega) (by omega) (by omega)]
  · simp only []
    rw [byteMid r g b (by omega) (by omega) (by omega)]
  · simp only []
    rw [byteLo r g b (by omega) (by omega) (by omega)]

/-- C6 witness: the round trip at the concrete bytes (12, 200, 7) with alpha 99. -/
theorem claim6_rgb_pack_decode_round_trip_witness :
    (getColorValueFromRGB (.num ((12 : ℕ) : ℚ)) (.num ((200 : ℕ) : ℚ)) (.num ((7 : ℕ) : ℚ))
        (.num ((99 : ℕ) : ℚ))).alpha = .num ((99 : ℕ) : ℚ) ∧
    (rgbObjOf ((getColorValueFromRGB (.num ((12 : ℕ) : ℚ)) (.num ((200 : ℕ) : ℚ))
        (.num ((7 : ℕ) : ℚ)) (.num ((99 : ℕ) : ℚ))).color)).red = ((12 : ℕ) : ℤ) ∧
    (rgbObjOf ((getColorValueFromRGB (.num ((12 : ℕ) : ℚ)) (.num ((200 : ℕ) : ℚ))
        (.num ((7 : ℕ) : ℚ)) (.num ((99 : ℕ) : ℚ))).color)).green = ((200 : ℕ) : ℤ) ∧
    (rgbObjOf ((getColorValueFromRGB (.num ((12 : ℕ) : ℚ)) (.num ((200 : ℕ) : ℚ))
        (.num ((7 : ℕ) : ℚ)) (.num ((99 : ℕ) : ℚ))).color)).blue = ((7 : ℕ) : ℤ) :=
  claim6_rgb_pack_decode_round_trip 12 200 7 99 (by norm_num) (by norm_num) (by norm_num)
    (by norm_num)

/-- C7: for valid-digit hex strings, the 3-digit form duplicates each digit and gets
alpha 255, the 6-digit form takes the digit pairs as full bytes with alpha 255, and the
8-digit form takes the first six digits as the packed bytes and the last two as the
alpha byte; concretely "#336699" stores packed 0x336699 whose view reads red 51,
green 102, blue 153 with alpha 255. -/
theorem claim7_hex_digit_forms :
    (∀ (c0 c1 c2 : Char) (v0 v1 v2 : ℕ) (mode : ColorMode),
      hexDigitVal? c0 = some v0 → hexDigitVal? c1 = some v1 → hexDigitVal? c2 = some v2 →
      parseParameters mode (.hex ([ c0, c1, c2 ])) .undef .undef .undef =
        .ok { color := .num (((17 * v0) * 65536 + (17 * v1) * 256 + 17 * v2 : ℕ) : ℚ),
              alpha := .num 255 }) ∧
    (∀ (c0 c1 c2 c3 c4 c5 : Char) (v0 v1 v2 v3 v4 v5 : ℕ) (mode : ColorMode),
      hexDigitVal? c0 = some v0 → hexDigitVal? c1 = some v1 → hexDigitVal? c2 = some v2 →
      hexDigitVal? c3 = some v3 → hexDigitVal? c4 = some v4 → hexDigitVal? c5 = some v5 →
      parseParameters mode (.hex ([ c0, c1, c2, c3, c4, c5 ])) .undef .undef .undef =
        .ok { color := .num ((((16 * v0 + v1) * 65536 + (16 * v2 + v3) * 256 + (16 * v4 + v5) : ℕ) : ℚ)),
              alpha := .num 255 }) ∧
    (∀ (c0 c1 c2 c3 c4 c5 c6 c7 : Char) (v0 v1 v2 v3 v4 v5 v6 v7 : ℕ) (mode : ColorMode),
      hexDigitVal? c0 = some v0 → hexDigitVal? c1 = some v1 → hexDigitVal? c2 = some v2 →
      hexDigitVal? c3 = some v3 → hexDigitVal? c4 = some v4 → hexDigitVal? c5 = some v5 →
      hexDigitVal? c6 = some v6 → hexDigitVal? c7 = some v7 →
      parseParameters mode (.hex ([ c0, c1, c2, c3, c4, c5, c6, c7 ])) .undef .undef .undef =
        .ok { color := .num ((((16 * v0 + v1) * 65536 + (16 * v2 + v3) * 256 + (16 * v4 + v5) : ℕ) : ℚ)),
              alpha := .num ((16 * v6 + v7 : ℕ) : ℚ) }) ∧
    (mkColor .RGB (.hex ([ '#', '3', '3', '6', '6', '9', '9' ])) .undef .undef .undef =
      .ok { c := .num 0x336699, a := .num 255, lrgb := none, lhsl := none } ∧
     rgbObjOf (.num 0x336699) =
      { color := .num 0x336699, red := 51, green := 102, blue := 153 }) := by
  refine ⟨?_, ?_, ?_, by decide, by decide⟩
  · intro c0 c1 c2 v0 v1 v2 mode h0 h1 h2
    rw [parse_hex3_shape c0 c1 c2 mode (hexDigit_ne_hash h0),
      c7six c0 c0 c1 c1 c2 c2 v0 v0 v1 v1 v2 v2 h0 h0 h1 h1 h2 h2,
      show jsParseIntHex ([ 'f', 'f' ]) = .num 255 from by decide]
    norm_num
    ring_nf
  · intro c0 c1 c2 c3 c4 c5 v0 v1 v2 v3 v4 v5 mode h0 h1 h2 h3 h4 h5
    rw [parse_hex6_shape c0 c1 c2 c3 c4 c5 mode (hexDigit_ne_hash h0),
      c7six c0 c1 c2 c3 c4 c5 v0 v1 v2 v3 v4 v5 h0 h1 h2 h3 h4 h5,
      show jsParseIntHex ([ 'f', 'f' ]) = .num 255 from by decide]
  · intro c0 c1 c2 c3 c4 c5 c6 c7 v0 v1 v2 v3 v4 v5 v6 v7 mode h0 h1 h2 h3 h4 h5 h6 h7
    rw [parse_hex8_shape c0 c1 c2 c3 c4 c5 c6 c7 mode (hexDigit_ne_hash h0),
      c7six c0 c1 c2 c3 c4 c5 v0 v1 v2 v3 v4 v5 h0 h1 h2 h3 h4 h5]
    have h67 : jsParseIntHex ([ c6, c7 ]) = .num ((16 * v6 + v7 : ℕ) : ℚ) := by
      simp only [jsParseIntHex, List.takeWhile_cons, h6, h7, Option.isSome_some, if_true,
        List.takeWhile_nil, List.foldl_cons, List.foldl_nil, Option.getD_some]
      norm_num
    rw [h67]

/-- C7 witness: the 6-digit part at the concrete digits of "336699". -/
theorem claim7_hex_digit_forms_witness :
    parseParameters .RGB (.hex ([ '3', '3', '6', '6', '9', '9' ])) .undef .undef .undef =
      .ok { color := .num ((((16 * 3 + 3) * 65536 + (16 * 6 + 6) * 256 + (16 * 9 + 9) : ℕ) : ℚ)),
            alpha := .num 255 } :=
  claim7_hex_digit_forms.2.1 '3' '3' '6' '6' '9' '9' 3 3 6 6 9 9 .RGB (by decide) (by decide)
    (by decide) (by decide) (by decide) (by decide)

/-- C8: with coherent caches, each view read returns exactly the decode of the live
packed value and preserves coherence; mutating red preserves coherence and the next hsl
read reflects the new packed value; and concretely, starting from black (packed 0),
reading hsl, setting red to 255, and reading hsl again yields hue 0, saturation 100,
lightness 50 — no stale cache is returned. -/
theorem claim8_cache_coherence :
    (∀ s : ColorState, CacheInv s →
      (getRgb s).1 = rgbObjOf s.c ∧ (getHsl s).1 = hslObjOf s.c ∧
      CacheInv (getRgb s).2 ∧ CacheInv (getHsl s).2) ∧
    (∀ (s : ColorState) (v : ℚ), CacheInv s →
      CacheInv (setRed s v) ∧ (getHsl (setRed s v)).1 = hslObjOf (setRed s v).c) ∧
    (mkColor .RGB (.num 0) .undef .undef .undef =
      .ok { c := .num 0, a := .num 255, lrgb := none, lhsl := none }) ∧
    ((getHsl (setRed (getHsl { c := .num 0, a := .num 255, lrgb := none, lhsl := none }).2 255)).1 =
      { color := .num 0xff0000, hue := 0, saturation := 100, lightness := 50 }) := by
  refine ⟨?_, ?_, ?_, ?_⟩
  · intro s hinv
    exact ⟨getRgb_fst hinv.1, getHsl_fst hinv.1 hinv.2,
      ⟨getRgb_RInv hinv.1, getRgb_HInv hinv.2⟩,
      ⟨getHsl_RInv hinv.1, getHsl_HInv hinv.1 hinv.2⟩⟩
  · intro s v hinv
    have h2 := setRed_CacheInv hinv v
    exact ⟨h2, getHsl_fst h2.1 h2.2⟩
  · norm_num [mkColor, parseParameters, numericTail, getColorValueFromRGB, clamp, jsMax,
      jsMin, jsBin, JSVal.toNumber, JSVal.truthy, truncQ, toI32, u32, i32, zShl, zShr, zOr,
      zAnd, Except.map]
  · norm_num [getHsl, getRgb, jsNeq, setRed, rgbObjOf_black, hslFields_black, conv_red255,
      rgbObjOf_red255, hslFields_red]

/-- C8 witness: the coherent-read consequence at a freshly constructed black instance. -/
theorem claim8_cache_coherence_witness :
    (getRgb { c := .num 0, a := .num 255, lrgb := none, lhsl := none }).1 = rgbObjOf (.num 0) :=
  (claim8_cache_coherence.1 { c := .num 0, a := .num 255, lrgb := none, lhsl := none }
    ⟨fun o ho => Option.noConfusion ho, fun o ho => Option.noConfusion ho⟩).1

/-- C9 counterexample: the constructor accepts the 3-character string "zzz" (valid
length, invalid digits), `parseInt` yields NaN, and the instance stores NaN as its
packed value — not an unsigned 24-bit integer as the claim asserts for every
constructor call. -/
theorem claim9_counterexample_nan_packed :
    mkColor .RGB (.hex ([ 'z', 'z', 'z' ])) .undef .undef .undef =
        .ok { c := .nan, a := .num 255, lrgb := none, lhsl := none } ∧
      ¬ PackedOK .nan := by
  constructor
  · decide
  · rintro ⟨n, _, h⟩
    exact JSVal.noConfusion h

/-- C9 amended: every numeric write path clamps before packing, so both static
conversions always produce a packed value that is an unsigned 24-bit integer for
arbitrary inputs; hence every constructor call with bare numeric input and every channel
setter with numeric input stores such a value (only hex strings with non-hex digits can
store NaN). -/
theorem claim9_packed_always_24bit_amended :
    (∀ r g b a : JSVal, PackedOK (getColorValueFromRGB r g b a).color) ∧
    (∀ h s l a : JSVal, PackedOK (getColorValueFromHSL h s l a).color) ∧
    (∀ (mode : ColorMode) (q : ℚ) (b c alpha : JSVal),
      parseParameters mode (.num q) b c alpha = .ok (numericTail mode (.num q) b c alpha) ∧
      PackedOK (numericTail mode (.num q) b c alpha).color) ∧
    (∀ (s : ColorState) (v : ℚ),
      PackedOK (setRed s v).c ∧ PackedOK (setGreen s v).c ∧ PackedOK (setBlue s v).c ∧
      PackedOK (setHue s v).c ∧ PackedOK (setSaturation s v).c ∧
      PackedOK (setLightness s v).c) := by
  refine ⟨getRGB_packedOK, getHSL_packedOK, ?_, ?_⟩
  · intro mode q b c alpha
    refine ⟨rfl, ?_⟩
    cases mode
    · exact getRGB_packedOK _ _ _ _
    · exact getHSL_packedOK _ _ _ _
  · intro s v
    refine ⟨?_, ?_, ?_, ?_, ?_, ?_⟩
    · exact getRGB_packedOK (.num v) (.num ((getRgb s).1.green : ℚ))
        (.num ((getRgb (getRgb s).2).1.blue : ℚ)) ((getRgb (getRgb s).2).2.a)
    · exact getRGB_packedOK (.num ((getRgb s).1.red : ℚ)) (.num v)
        (.num ((getRgb (getRgb s).2).1.blue : ℚ)) ((getRgb (getRgb s).2).2.a)
    · exact getRGB_packedOK (.num ((getRgb s).1.red : ℚ))
        (.num ((getRgb (getRgb s).2).1.green : ℚ)) (.num v) ((getRgb (getRgb s).2).2.a)
    · exact getHSL_packedOK (.num v) (.num (getHsl s).1.saturation)
        (.num (getHsl (getHsl s).2).1.lightness) ((getHsl (getHsl s).2).2.a)
    · exact getHSL_packedOK (.num (getHsl s).1.hue) (.num v)
        (.num (getHsl (getHsl s).2).1.lightness) ((getHsl (getHsl s).2).2.a)
    · exact getHSL_packedOK (.num (getHsl s).1.hue) (.num (getHsl (getHsl s).2).1.saturation)
        (.num v) ((getHsl (getHsl s).2).2.a)

/-- C10: every mutator other than the alpha setter leaves the stored alpha unchanged —
all six channel setters preserve it for every state and value, the hex setter preserves
it for every string (whenever it succeeds), and in particular an 8-digit hex string
carrying an alpha byte does not update the instance alpha. -/
theorem claim10_mutators_preserve_alpha :
    (∀ (s : ColorState) (v : ℚ),
      (setRed s v).a = s.a ∧ (setGreen s v).a = s.a ∧ (setBlue s v).a = s.a ∧
      (setHue s v).a = s.a ∧ (setSaturation s v).a = s.a ∧ (setLightness s v).a = s.a) ∧
    (∀ (mode : ColorMode) (s : ColorState) (hx : List Char),
      (setHexStr mode s hx).map ColorState.a = (setHexStr mode s hx).map (fun _ => s.a)) ∧
    (∀ s : ColorState,
      (setHexStr .RGB s ([ '1', '1', '2', '2', '3', '3', '4', '4' ])).map ColorState.a =
        .ok s.a) := by
  refine ⟨?_, ?_, ?_⟩
  · intro s v
    exact ⟨setRed_a s v, setGreen_a s v, setBlue_a s v, setHue_a s v, setSaturation_a s v,
      setLightness_a s v⟩
  · intro mode s hx
    unfold setHexStr
    cases hp : parseParameters mode (.hex hx) .undef .undef .undef <;> simp [hp, Except.map]
  · intro s
    have hp : parseParameters .RGB (.hex ([ '1', '1', '2', '2', '3', '3', '4', '4' ]))
        .undef .undef .undef = .ok { color := .num 0x112233, alpha := .num 0x44 } := by decide
    simp [setHexStr, hp, Except.map]

end FFG
